import Mathlib

/-!
Verification of the aioyam home-automation message bus against its
natural-language specification.  The Python sources are shallowly
embedded: strings become `List Char`, Python dicts become
insertion-ordered association lists, exceptions become `Option`/`Except`,
and the asynchronous protocol client becomes a pure function of an
explicit environment describing what each opened connection delivers.
-/

namespace Aioyam

/-- Python strings are modelled as lists of characters. -/
abbrev Str := List Char

/-- Coerce a Lean string literal into the model. -/
def str (s : String) : Str := s.data

/-- Python `s.upper()` (ASCII, which is all the protocol uses). -/
def upper (s : Str) : Str := s.map Char.toUpper

/-- Python `s.startswith(p)`: `hasPref p s` holds when `p` is an initial
segment of `s`. -/
def hasPref : Str → Str → Bool
  | [], _ => true
  | _ :: _, [] => false
  | p :: ps, c :: cs => p = c && hasPref ps cs

/-- Python `s.endswith(".")`. -/
def lastIsDot (s : Str) : Bool := s.getLast? = some '.'

/-- Transcription of `DotPattern.match` from `poc.py` (the `simple.py` copy upper-cases the
pattern at construction instead of at match time, which is equivalent).
The second branch transcribes the Python expression
`prefix = self.pattern + "" if self.pattern[-1] == "." else "."`
with Python's conditional-expression precedence: the whole of
`self.pattern + ""` is the true-arm, so a pattern that does not end in
the separator yields the literal prefix `"."`. -/
def dotPatternMatch (pat subj : Str) : Bool :=
  if upper pat = upper subj ∨ pat = [] ∨ pat = ['.'] then
    true
  else
    let pre := if lastIsDot pat then pat ++ [] else ['.']
    hasPref (upper pre) (upper subj)

/-- The matcher the spec describes (dot-hierarchical policy): pattern
empty or `"."`, case-insensitive equality, or the subject starts with
the pattern followed by the separator (not doubling a trailing one). -/
def specDotMatch (pat subj : Str) : Bool :=
  if upper pat = upper subj ∨ pat = [] ∨ pat = ['.'] then
    true
  else
    let pre := if lastIsDot pat then pat else pat ++ ['.']
    hasPref (upper pre) (upper subj)

/-! ## Response decoding (`yamaha.py`, `decode_response`) -/

/-- Insertion-ordered association list standing in for a Python dict. -/
abbrev Dict := List (Str × Str)

/-- Python `d[k] = v`: overwrite in place when the key exists, else
append at the end (insertion order, as Python dicts preserve). -/
def dictSet (d : Dict) (k v : Str) : Dict :=
  if d.any (fun p => p.1 = k) then
    d.map (fun p => if p.1 = k then (p.1, v) else p)
  else
    d ++ [(k, v)]

/-- Python `d.get(k)`: the value stored under `k`, if any. -/
def dictGet (d : Dict) (k : Str) : Option Str :=
  match d.find? (fun p => p.1 = k) with
  | some p => some p.2
  | none => none

/-- Python `data.rstrip('\r\n')`: drop trailing CR and LF characters. -/
def pyRstripCRLF (s : Str) : Str :=
  (s.reverse.dropWhile (fun c => c = '\r' ∨ c = '\n')).reverse

/-- Python `s.split("\r\n")`: split on the two-character separator;
the empty string splits into `[""]`. -/
def splitCRLF : Str → List Str
  | [] => [[]]
  | '\r' :: '\n' :: rest => [] :: splitCRLF rest
  | c :: rest =>
    match splitCRLF rest with
    | [] => [[c]]
    | h :: t => (c :: h) :: t

/-- Split of a string at its last `'='`: `none` when it contains no
`'='`, otherwise the parts before and after the last occurrence.
Helper for `pyMatchLine`, which applies it to a newline-free string. -/
def splitLastEq : Str → Option (Str × Str)
  | [] => none
  | c :: rest =>
    match splitLastEq rest with
    | some (n, v) => some (c :: n, v)
    | none => if c = '=' then some ([], rest) else none

/-- Application of `re.match` with pattern `(.*)=(.*)\s*` to one chunk
produced by the CRLF split.  In Python regexes `.` matches any character
except `'\n'`, so both groups live in the part of the chunk before its
first `'\n'`: the match succeeds exactly when that part contains `'='`,
greediness makes group 1 everything before its last `'='` and group 2
everything after it (text from the first `'\n'` on is at most consumed
by `\s*` and never enters a group).  `none` models the match object
being `None`, in which case the Python code raises `AttributeError` on
`m.group(1)`. -/
def pyMatchLine (line : Str) : Option (Str × Str) :=
  splitLastEq (line.takeWhile (fun c => ¬ c = '\n'))

/-- The three reserved error tokens of the YNCA protocol. -/
def errorTokens : List Str := [str "@UNDEFINED", str "@RESTRICTED", str "@ERROR"]

/-- The line-parsing loop of `decode_response`: empty lines are skipped,
every other line must match the regex (else `AttributeError`, modelled
as `none`), and the matched groups go into the dict in order. -/
def decodeLines : List Str → Dict → Option Dict
  | [], acc => some acc
  | line :: rest, acc =>
    if line = [] then
      decodeLines rest acc
    else
      match pyMatchLine line with
      | none => none
      | some (n, v) => decodeLines rest (dictSet acc n v)

/-- Transcription of `decode_response` from `yamaha.py`: strip trailing CR/LF, map a bare
error token to `{'response': '@ERROR'}`, otherwise parse the lines and
finish by storing `'@OK'` under the key `"response"`.  `none` models the
`AttributeError` raised on a non-empty line with no `'='`. -/
def decode_response (data : Str) : Option Dict :=
  let response := pyRstripCRLF data
  if errorTokens.contains response then
    some [(str "response", str "@ERROR")]
  else
    match decodeLines (splitCRLF response) [] with
    | none => none
    | some d => some (dictSet d (str "response") (str "@OK"))

/-- The status of a decoded result: the value stored under `"response"`. -/
def respStatus (d : Dict) : Option Str := dictGet d (str "response")

/-- The parsed fields of a decoded result: every entry other than the
reserved `"response"` key. -/
def respFields (d : Dict) : Dict := d.filter (fun p => ¬ p.1 = str "response")

/-! ## Protocol client (`yamaha.py`, `Yamaha` / `ynca_request`)

The client opens one fresh connection per request.  What the network
delivers for one opened connection is abstracted as a `ConnOutcome`:
either opening the connection raises, or it succeeds and the read loop
accumulates a given list of CRLF-terminated lines before the timeout
elapses or the peer closes.  A call sequence consumes outcomes from a
list, one per connection, and the wire requests issued are recorded so
that retry behaviour is observable. -/

/-- What the environment does for one opened connection. -/
inductive ConnOutcome where
  /-- Opening the connection raises (`asyncio.open_connection` fails). -/
  | connFail : ConnOutcome
  /-- The connection opens and these response lines are received before
  the timeout elapses or the peer closes. -/
  | connOk : List Str → ConnOutcome
deriving DecidableEq, Repr

/-- Timeouts are Python floats carrying exact values like `0.05`; they
are only compared with zero and doubled, so they are modelled exactly
in hundredths of a second (`0.05` becomes `5`). -/
abbrev Timeout := ℕ

/-- One wire request: the command line `name=value` and the read
timeout in effect for its response. -/
structure WireCall where
  name : Str
  value : Str
  tmo : Timeout
deriving DecidableEq, Repr

/-- Constructor default: `Yamaha.__init__` sets `self.timeout = 0.05` (five hundredths). -/
def defaultTimeout : Timeout := 5

/-- Python `timeout or self.timeout`: `None` and `0` are falsy and fall
back to the default. -/
def pyOr (t : Option Timeout) (dflt : Timeout) : Timeout :=
  match t with
  | none => dflt
  | some x => if x = 0 then dflt else x

/-- Behaviour of `ynca_request` as observed through `Yamaha.request`: a connection
failure (or any other exception, including the decoder's
`AttributeError`) is caught by `request`'s bare `except` and surfaces
as `None`; otherwise the accumulated lines are decoded.  A zero read
timeout makes `asyncio.wait_for` expire before any line arrives. -/
def yamahaRequest (c : ConnOutcome) (tmo : Timeout) : Option Dict :=
  match c with
  | .connFail => none
  | .connOk ls => decode_response (if tmo = 0 then [] else ls).flatten

/-- Model of `Yamaha.get`: one request with value `"?"` and timeout
`timeout or self.timeout`; the pair returned is (result, wire requests
issued). -/
def yamahaGet (env : List ConnOutcome) (name : Str) (tmo : Option Timeout) :
    Option Dict × List WireCall :=
  let t := pyOr tmo defaultTimeout
  (yamahaRequest (env.headD .connFail) t, [⟨name, str "?", t⟩])

/-- Model of `Yamaha.put`: one request with timeout `timeout or self.timeout`;
when the request result is falsy (`None`) and the effective timeout is
non-zero, a single follow-up `get(name, timeout * 2.0)` is issued on a
fresh connection and its result returned. -/
def yamahaPut (env : List ConnOutcome) (name value : Str) (tmo : Option Timeout) :
    Option Dict × List WireCall :=
  let t := pyOr tmo defaultTimeout
  let x := yamahaRequest (env.headD .connFail) t
  if x = none ∧ ¬ t = 0 then
    let g := yamahaGet env.tail name (some (t * 2))
    (g.1, ⟨name, value, t⟩ :: g.2)
  else
    (x, [⟨name, value, t⟩])

/-! ## Message bus (`poc.py`, `BasicMessageBus`) -/

/-- Messages carried by the bus: `namedtuple("Message", "source, key, value")`. -/
structure Message where
  source : Str
  key : Str
  value : Str
deriving DecidableEq, Repr

/-- One registered listener: its `DotPattern` and its delivery queue.
The queue holds `Option Message` because `close` enqueues the `None`
sentinel. -/
structure Subscriber where
  pattern : Str
  queue : List (Option Message)
deriving DecidableEq, Repr

/-- The state a `BasicMessageBus` owns: connectedness, the channel
store (key to latest value, insertion-ordered), and the listener set
(modelled as a list; the claims checked here do not depend on Python's
set iteration order). -/
structure Bus where
  connected : Bool
  channels : Dict
  listeners : List Subscriber
deriving DecidableEq, Repr

/-- The two exceptions bus operations raise: `RuntimeError("bus not
connected")` and `ValueError("trailing '.' in key")`. -/
inductive BusError where
  | notConnected : BusError
  | invalidKey : BusError
deriving DecidableEq, Repr

/-- Model of `BasicMessageBus.send`: raise if not connected, raise on a key with
a trailing separator, otherwise store the latest value and enqueue the
message to every listener whose pattern matches the key. -/
def busSend (b : Bus) (m : Message) : Except BusError Bus :=
  if ¬ b.connected then
    .error .notConnected
  else if lastIsDot m.key then
    .error .invalidKey
  else
    .ok { b with
          channels := dictSet b.channels m.key m.value,
          listeners := b.listeners.map (fun s =>
            if dotPatternMatch s.pattern m.key then
              { s with queue := s.queue ++ [some m] }
            else s) }

/-- The snapshot phase of `BasicMessageBus.listen`: one
`Message("local", k, v)` per currently stored channel whose key the
pattern matches, in store order. -/
def listenSnapshot (channels : Dict) (pat : Str) : List Message :=
  (channels.filter (fun kv => dotPatternMatch pat kv.1)).map
    (fun kv => ⟨str "local", kv.1, kv.2⟩)

/-- Model of `BasicMessageBus.listen` up to its first suspension: raise if not
connected, otherwise register the subscription (fresh empty queue) and
yield the snapshot of current channel values. -/
def busListen (b : Bus) (pat : Str) : Except BusError (Bus × List Message) :=
  if ¬ b.connected then
    .error .notConnected
  else
    .ok ({ b with listeners := b.listeners ++ [⟨pat, []⟩] },
         listenSnapshot b.channels pat)

/-! ## Redis bridge (`poc.py`, `RedisMessageBridge`) -/

/-- The bridge's sender task as a stream function: from the messages
its `bus.listen` stream delivers, publish `(key, value)` to the broker
for exactly those whose source is not the broker tag `"redis"`. -/
def bridgeSender (delivered : List Message) : List (Str × Str) :=
  (delivered.filter (fun m => ¬ m.source = str "redis")).map
    (fun m => (m.key, m.value))

/-- The bridge's receiver task as a stream function: every inbound
broker event `(k, v)` becomes `bus.send(Message("redis", k, v))`. -/
def bridgeReceiver (events : List (Str × Str)) : List Message :=
  events.map (fun kv => ⟨str "redis", kv.1, kv.2⟩)

/-! ## Helper lemmas -/

/-- Unfolding lemma for `dictGet` on a cons cell. -/
theorem dictGet_cons (x : Str × Str) (rest : Dict) (k : Str) :
    dictGet (x :: rest) k = if x.1 = k then some x.2 else dictGet rest k := by
  by_cases h : x.1 = k <;> simp [dictGet, List.find?_cons, h]

/-- After overwriting an existing key in place, lookup finds the new value. -/
theorem dictGet_map_set (d : Dict) (k v : Str)
    (h : d.any (fun p => p.1 = k) = true) :
    dictGet (d.map (fun p => if p.1 = k then (p.1, v) else p)) k = some v := by
  induction d with
  | nil => simp at h
  | cons a tl ih =>
    by_cases hk : a.1 = k
    · simp [List.map_cons, dictGet_cons, hk]
    · have htl : tl.any (fun p => p.1 = k) = true := by
        simp [List.any_cons, hk] at h
        simpa using h
      simp [List.map_cons, dictGet_cons, hk]
      exact ih htl

/-- Appending a fresh key at the end makes lookup find its value when no
earlier entry has that key. -/
theorem dictGet_append_last (d : Dict) (k v : Str)
    (h : ∀ p ∈ d, ¬ p.1 = k) :
    dictGet (d ++ [(k, v)]) k = some v := by
  induction d with
  | nil => simp [dictGet_cons]
  | cons a tl ih =>
    have ha : ¬ a.1 = k := h a (by simp)
    rw [List.cons_append, dictGet_cons]
    simp only [if_neg ha]
    exact ih (fun p hp => h p (by simp [hp]))

/-- Lookup after a Python-dict store finds the stored value. -/
theorem dictGet_dictSet (d : Dict) (k v : Str) :
    dictGet (dictSet d k v) k = some v := by
  by_cases h : d.any (fun p => p.1 = k) = true
  · rw [dictSet, if_pos h]
    exact dictGet_map_set d k v h
  · rw [dictSet, if_neg h]
    refine dictGet_append_last d k v ?_
    intro p hp hpk
    exact h (List.any_eq_true.mpr ⟨p, hp, by simpa using hpk⟩)

/-- The last-`'='` split succeeds exactly on strings containing `'='`. -/
theorem splitLastEq_isSome (l : Str) :
    (splitLastEq l).isSome = decide ('=' ∈ l) := by
  induction l with
  | nil => rfl
  | cons c rest ih =>
    rw [splitLastEq]
    cases h : splitLastEq rest with
    | some p =>
      have hr : '=' ∈ rest := by
        rw [h] at ih
        exact of_decide_eq_true ih.symm
      simp [List.mem_cons, hr]
    | none =>
      have hr : ¬ '=' ∈ rest := by
        rw [h] at ih
        intro hm
        rw [decide_eq_true hm] at ih
        exact Bool.false_ne_true ih
      by_cases hc : c = '='
      · simp [hc]
      · have hcc : ¬ '=' = c := fun h2 => hc h2.symm
        simp [if_neg hc, List.mem_cons, hr, hcc]

/-- The regex match succeeds exactly when the part of the chunk before
its first `'\n'` contains `'='`. -/
theorem pyMatchLine_isSome (l : Str) :
    (pyMatchLine l).isSome
      = decide ('=' ∈ l.takeWhile (fun c => ¬ c = '\n')) :=
  splitLastEq_isSome (l.takeWhile (fun c => ¬ c = '\n'))

/-- The parsing loop succeeds exactly when every non-empty line contains
`'='` before its first `'\n'`, independently of the accumulator. -/
theorem decodeLines_isSome (lines : List Str) (acc : Dict) :
    (decodeLines lines acc).isSome
      = lines.all (fun l => decide (l = [])
          || decide ('=' ∈ l.takeWhile (fun c => ¬ c = '\n'))) := by
  induction lines generalizing acc with
  | nil => rfl
  | cons line rest ih =>
    rw [decodeLines]
    by_cases he : line = []
    · simp [he, ih]
    · rw [if_neg he]
      cases h : pyMatchLine line with
      | none =>
        have hc : ¬ '=' ∈ line.takeWhile (fun c => ¬ c = '\n') := by
          have h2 := pyMatchLine_isSome line
          rw [h] at h2
          intro hm
          rw [decide_eq_true hm] at h2
          exact Bool.false_ne_true h2
        simp only [decide_not] at hc
        simp [List.all_cons, he, hc]
      | some p =>
        have hc : '=' ∈ line.takeWhile (fun c => ¬ c = '\n') := by
          have h2 := pyMatchLine_isSome line
          rw [h] at h2
          exact of_decide_eq_true h2.symm
        simp only [decide_not] at hc
        simp [List.all_cons, hc, ih]

/-! ## Claim theorems -/

/-- Claim C1: the dot-hierarchical matcher should treat `""` and `"."`
as match-everything, compare case-insensitively, and accept a subject
that starts with the pattern plus the separator, so
`match("cat", "cat.dog")` should be true.  The code disagrees: Python's
conditional-expression precedence makes
`self.pattern + "" if self.pattern[-1] == "." else "."` evaluate to the
bare separator `"."` whenever the pattern does not already end in one,
so `match("cat", "cat.dog")` is false (while the spec-side matcher
`specDotMatch` says true), and any subject beginning with `"."` matches
such a pattern. -/
theorem c1_dot_matcher_eval :
    dotPatternMatch (str "cat") (str "cat.dog") = false
      ∧ specDotMatch (str "cat") (str "cat.dog") = true
      ∧ dotPatternMatch (str "cat") (str "catalog") = false
      ∧ dotPatternMatch (str "cat") (str "CAT") = true
      ∧ dotPatternMatch (str "") (str "cow.emu") = true
      ∧ dotPatternMatch (str ".") (str "cow.emu") = true
      ∧ dotPatternMatch (str "cat.") (str "cat.dog") = true
      ∧ dotPatternMatch (str "cat") (str ".hidden") = true := by
  decide

/-- Claim C2: a `put` whose non-zero timeout elapses with no response
lines should perform exactly one follow-up `get(name, 2*T)` and return
its result.  The code disagrees: an empty accumulated response decodes
to the truthy dict `{'response': '@OK'}`, so `if not x and timeout`
never fires on a silent timeout — `put` issues exactly one wire request
and returns the `@OK` dict, never the follow-up `get`. -/
theorem c2_put_timeout_eval :
    yamahaPut [ConnOutcome.connOk []] (str "@MAIN:PWR") (str "On")
        (some defaultTimeout)
      = (some [(str "response", str "@OK")],
         [⟨str "@MAIN:PWR", str "On", defaultTimeout⟩]) := by
  decide

/-- Claim C4: `put(name, value, 0)` should be fire-and-forget.  The
code disagrees: `timeout or self.timeout` coerces the falsy `0` to the
default `0.05`, so the client waits out the read loop (here it reads
the line `A=1` that the claim says it must not wait for), and on a
connection failure the non-zero coerced timeout even triggers the
fallback `get`, issuing a second wire request. -/
theorem c4_put_zero_timeout_eval :
    yamahaPut [ConnOutcome.connOk [str "A=1\r\n"]] (str "N") (str "V") (some 0)
        = (some [(str "A", str "1"), (str "response", str "@OK")],
           [⟨str "N", str "V", defaultTimeout⟩])
      ∧ yamahaPut [ConnOutcome.connFail, ConnOutcome.connOk []]
            (str "N") (str "V") (some 0)
          = (some [(str "response", str "@OK")],
             [⟨str "N", str "V", defaultTimeout⟩,
              ⟨str "N", str "?", 10⟩]) := by
  constructor <;> decide

/-- Claim C5: decoding `"@ERROR\r\n"` yields status ERROR; decoding
`"A=1\r\nB=2\r\n"` yields status OK with ordered fields `A="1"`, `B="2"`;
decoding `""` yields status OK with an empty field mapping. -/
theorem c5_decode_eval :
    decode_response (str "@ERROR\r\n") = some [(str "response", str "@ERROR")]
      ∧ respStatus [(str "response", str "@ERROR")] = some (str "@ERROR")
      ∧ respFields [(str "response", str "@ERROR")] = []
      ∧ decode_response (str "A=1\r\nB=2\r\n")
          = some [(str "A", str "1"), (str "B", str "2"),
                  (str "response", str "@OK")]
      ∧ respStatus [(str "A", str "1"), (str "B", str "2"),
                    (str "response", str "@OK")] = some (str "@OK")
      ∧ respFields [(str "A", str "1"), (str "B", str "2"),
                    (str "response", str "@OK")]
          = [(str "A", str "1"), (str "B", str "2")]
      ∧ decode_response (str "") = some [(str "response", str "@OK")]
      ∧ respFields [(str "response", str "@OK")] = [] := by
  decide

/-- Claim C6 counterexample: the claim says decoding never raises and a
malformed response line is folded into a status-ERROR result, but
decoding `"garbage\r\n"` (a non-empty line with no `=`) raises
`AttributeError` (`none` in the embedding) instead of returning any
result, and so does decoding `"x\ny=1\r\n"`, whose single CRLF-split
chunk has no `'='` before its first bare `'\n'` (the regex `.` does not
match `'\n'`). -/
theorem c6_malformed_counterexample :
    decode_response (str "garbage\r\n") = none
      ∧ decode_response (str "x\ny=1\r\n") = none := by
  constructor <;> decide

/-- Claim C6 as amended: decoding always terminates, and it returns a
decoded result exactly when the stripped response is one of the
reserved error tokens or every non-empty CRLF-separated line contains
`'='` before its first bare `'\n'` (the region the regex can match); on
every other input it raises `AttributeError` (modelled as `none`),
which is not folded into a status-ERROR result.  The concrete conjunct
shows the regex groups never cross a bare `'\n'`: `"a=b\nc"` parses as
`a="b"`, discarding `"\nc"`. -/
theorem c6_decode_totality :
    (∀ data : Str,
        (decode_response data).isSome
          = (decide (pyRstripCRLF data ∈ errorTokens)
             || (splitCRLF (pyRstripCRLF data)).all
                  (fun l => decide (l = [])
                    || decide ('=' ∈ l.takeWhile (fun c => ¬ c = '\n')))))
      ∧ decode_response (str "a=b\nc\r\n")
          = some [(str "a", str "b"), (str "response", str "@OK")] := by
  refine ⟨?_, by decide⟩
  intro data
  rw [decode_response]
  by_cases h : pyRstripCRLF data ∈ errorTokens
  · simp [h]
  · rw [← decodeLines_isSome (splitCRLF (pyRstripCRLF data)) []]
    cases hd : decodeLines (splitCRLF (pyRstripCRLF data)) [] <;> simp [h, hd]

/-- Claim C7 counterexample: the claim says a connection failure never
triggers the put timeout fallback and the request is not retried, but
a `put` whose connection attempt fails returns `None` from `request`,
so `if not x and timeout` fires and a second wire request — the
fallback `get` with doubled timeout — is issued. -/
theorem c7_connfail_fallback_counterexample :
    yamahaPut [ConnOutcome.connFail, ConnOutcome.connFail]
        (str "N") (str "V") (some defaultTimeout)
      = (none, [⟨str "N", str "V", defaultTimeout⟩,
                ⟨str "N", str "?", 10⟩]) := by
  decide

/-- Claim C7 as amended: a connection failure surfaces as the distinct
`None` result of `request` (a timed-out read instead yields the truthy
`{'response': '@OK'}` dict, so the two outcomes are not conflated); a
failed `get` is not retried; but a `put` with non-zero effective
timeout reacts to a connection failure by issuing the single bounded
fallback `get(name, timeout * 2)` and returning its result. -/
theorem c7_connection_failure_behavior
    (name value : Str) (tmo : Option Timeout) (env : List ConnOutcome) :
    yamahaGet [ConnOutcome.connFail] name tmo
        = (none, [⟨name, str "?", pyOr tmo defaultTimeout⟩])
      ∧ yamahaRequest ConnOutcome.connFail (pyOr tmo defaultTimeout) = none
      ∧ yamahaRequest (ConnOutcome.connOk []) (pyOr tmo defaultTimeout)
          = some [(str "response", str "@OK")]
      ∧ (¬ pyOr tmo defaultTimeout = 0 →
          yamahaPut (ConnOutcome.connFail :: env) name value tmo
            = ((yamahaGet env name (some (pyOr tmo defaultTimeout * 2))).1,
               ⟨name, value, pyOr tmo defaultTimeout⟩
                 :: (yamahaGet env name (some (pyOr tmo defaultTimeout * 2))).2)) := by
  refine ⟨rfl, rfl, ?_, ?_⟩
  · simp [yamahaRequest]
    decide
  · intro ht
    simp [yamahaPut, yamahaRequest, ht]

/-- Claim C7 witness: the amended behaviour at timeout `0.05` with the
connection failing for both the put and its fallback get. -/
theorem c7_connection_failure_behavior_witness :
    yamahaGet [ConnOutcome.connFail] (str "N") (some 5)
        = (none, [⟨str "N", str "?", pyOr (some 5) defaultTimeout⟩])
      ∧ yamahaRequest ConnOutcome.connFail (pyOr (some 5) defaultTimeout) = none
      ∧ yamahaRequest (ConnOutcome.connOk []) (pyOr (some 5) defaultTimeout)
          = some [(str "response", str "@OK")]
      ∧ yamahaPut (ConnOutcome.connFail :: [ConnOutcome.connFail])
            (str "N") (str "V") (some 5)
          = ((yamahaGet [ConnOutcome.connFail] (str "N")
                (some (pyOr (some 5) defaultTimeout * 2))).1,
             ⟨str "N", str "V", pyOr (some 5) defaultTimeout⟩
               :: (yamahaGet [ConnOutcome.connFail] (str "N")
                     (some (pyOr (some 5) defaultTimeout * 2))).2) := by
  have h := c7_connection_failure_behavior (str "N") (str "V") (some 5)
    [ConnOutcome.connFail]
  exact ⟨h.1, h.2.1, h.2.2.1, h.2.2.2 (by decide)⟩

/-- Claim C3: the bridge's sender publishes, per `(key, value)`, exactly
one broker publish for each delivered message that is not tagged with
the broker source `"redis"` — so an external-sourced message is never
republished and a local-sourced one is relayed exactly once per
delivery — and the receiver turns every inbound broker event into a
`bus.send` of a message tagged `"redis"`, preserving keys and values. -/
theorem c3_bridge_loop_prevention :
    (∀ (delivered : List Message) (k v : Str),
        (bridgeSender delivered).count (k, v)
          = (delivered.filter (fun m =>
               decide (¬ m.source = str "redis")
                 && decide (m.key = k) && decide (m.value = v))).length)
      ∧ (∀ events : List (Str × Str),
          (bridgeReceiver events).map (fun m => (m.key, m.value)) = events
            ∧ (bridgeReceiver events).all
                (fun m => decide (m.source = str "redis")) = true) := by
  constructor
  · intro delivered k v
    induction delivered with
    | nil => rfl
    | cons m rest ih =>
      by_cases hs : m.source = str "redis"
      · simpa [bridgeSender, List.filter_cons, hs] using ih
      · by_cases hk : m.key = k
        · by_cases hv : m.value = v
          · simpa [bridgeSender, List.filter_cons, List.count_cons, hs, hk, hv]
              using ih
          · simpa [bridgeSender, List.filter_cons, List.count_cons, hs, hk, hv]
              using ih
        · simpa [bridgeSender, List.filter_cons, List.count_cons, hs, hk]
            using ih
  · intro events
    constructor
    · induction events with
      | nil => rfl
      | cons e rest ih =>
        simp only [bridgeReceiver, List.map_cons] at ih ⊢
        rw [ih]
    · simp only [bridgeReceiver, List.all_eq_true, List.mem_map,
        Prod.exists, forall_exists_index, and_imp]
      intro x k v _ hx
      subst hx
      rfl

/-- Claim C8: on a connected bus, `send` fails with InvalidKey exactly
when the key ends with the separator; on a disconnected bus both `send`
and `listen` fail with NotConnected; otherwise `send` stores the value
as the latest for the key and appends the message to the queue of
exactly the currently-registered subscribers whose pattern matches the
key, leaving the others untouched. -/
theorem c8_bus_validation (b : Bus) (m : Message) (pat : Str) :
    (b.connected = true →
        (busSend b m = .error .invalidKey ↔ lastIsDot m.key = true))
      ∧ (b.connected = false →
          busSend b m = .error .notConnected
            ∧ busListen b pat = .error .notConnected)
      ∧ (b.connected = true → lastIsDot m.key = false →
          ∃ b2, busSend b m = .ok b2
            ∧ dictGet b2.channels m.key = some m.value
            ∧ List.Forall₂ (fun s s2 : Subscriber => s2.pattern = s.pattern
                ∧ s2.queue = (if dotPatternMatch s.pattern m.key then
                    s.queue ++ [some m] else s.queue))
                b.listeners b2.listeners) := by
  refine ⟨?_, ?_, ?_⟩
  · intro hc
    by_cases hd : lastIsDot m.key = true
    · simp [busSend, hc, hd]
    · simp [busSend, hc, hd]
  · intro hc
    exact ⟨by simp [busSend, hc], by simp [busListen, hc]⟩
  · intro hc hd
    refine ⟨{ b with
        channels := dictSet b.channels m.key m.value,
        listeners := b.listeners.map (fun s =>
          if dotPatternMatch s.pattern m.key then
            { s with queue := s.queue ++ [some m] } else s) }, ?_, ?_, ?_⟩
    · simp [busSend, hc, hd]
    · exact dictGet_dictSet _ _ _
    · rw [List.forall₂_map_right_iff, List.forall₂_same]
      intro s _
      by_cases hm : dotPatternMatch s.pattern m.key = true <;> simp [hm]

/-- Claim C8 witness: the three branches at concrete buses — a trailing
separator rejected on a connected bus, NotConnected on a disconnected
bus, and a successful fan-out to the matching subscriber only. -/
theorem c8_bus_validation_witness :
    (busSend ⟨true, [], []⟩ ⟨str "local", str "a.", str "x"⟩
        = .error .invalidKey ↔ lastIsDot (str "a.") = true)
      ∧ (busSend ⟨false, [], []⟩ ⟨str "local", str "a", str "x"⟩
            = .error .notConnected
          ∧ busListen ⟨false, [], []⟩ (str ".") = .error .notConnected)
      ∧ (∃ b2, busSend ⟨true, [], [⟨str "cat.", []⟩, ⟨str "dog.", []⟩]⟩
            ⟨str "local", str "cat.pig", str "3"⟩ = .ok b2
          ∧ dictGet b2.channels (str "cat.pig") = some (str "3")
          ∧ List.Forall₂ (fun s s2 : Subscriber => s2.pattern = s.pattern
              ∧ s2.queue = (if dotPatternMatch s.pattern (str "cat.pig") then
                  s.queue ++ [some ⟨str "local", str "cat.pig", str "3"⟩]
                else s.queue))
              [⟨str "cat.", []⟩, ⟨str "dog.", []⟩] b2.listeners) :=
  ⟨(c8_bus_validation ⟨true, [], []⟩ ⟨str "local", str "a.", str "x"⟩
      (str ".")).1 rfl,
   (c8_bus_validation ⟨false, [], []⟩ ⟨str "local", str "a", str "x"⟩
      (str ".")).2.1 rfl,
   (c8_bus_validation ⟨true, [], [⟨str "cat.", []⟩, ⟨str "dog.", []⟩]⟩
      ⟨str "local", str "cat.pig", str "3"⟩ (str ".")).2.2 rfl (by decide)⟩

/-- Claim C9: every message the listen snapshot emits carries
`source="local"`, whatever send stored the value — the channel store
keeps only key and value — so a value sent with the bridge's external
tag `"redis"` is re-emitted to a later listener as a local-sourced
message, as the concrete scenario shows. -/
theorem c9_snapshot_source_local :
    (∀ (channels : Dict) (pat : Str),
        (listenSnapshot channels pat).all
          (fun m => decide (m.source = str "local")) = true)
      ∧ busSend ⟨true, [], []⟩ ⟨str "redis", str "cat.dog", str "x"⟩
          = .ok ⟨true, [(str "cat.dog", str "x")], []⟩
      ∧ busListen ⟨true, [(str "cat.dog", str "x")], []⟩ (str "cat.")
          = .ok (⟨true, [(str "cat.dog", str "x")], [⟨str "cat.", []⟩]⟩,
                 [⟨str "local", str "cat.dog", str "x"⟩]) := by
  refine ⟨?_, rfl, rfl⟩
  intro channels pat
  simp only [listenSnapshot, List.all_eq_true, List.mem_map, List.mem_filter,
    Prod.exists, forall_exists_index, and_imp]
  intro x k v _ _ hx
  subst hx
  rfl

/-- Claim C10: every decoded result stores the status under the
reserved key `"response"` with value `"@OK"` or `"@ERROR"`, so a parsed
line `response=X` is overwritten by the status token and `X` is never
observable, as the concrete input `"response=X\r\n"` shows. -/
theorem c10_response_key_reserved :
    (∀ (data : Str) (d : Dict), decode_response data = some d →
        respStatus d = some (str "@OK") ∨ respStatus d = some (str "@ERROR"))
      ∧ decode_response (str "response=X\r\n")
          = some [(str "response", str "@OK")] := by
  constructor
  · intro data d h
    rw [decode_response] at h
    by_cases hmem : pyRstripCRLF data ∈ errorTokens
    · rw [if_pos (by simpa using hmem)] at h
      simp only [Option.some.injEq] at h
      subst h
      right
      decide
    · rw [if_neg (by simpa using hmem)] at h
      cases hd : decodeLines (splitCRLF (pyRstripCRLF data)) [] with
      | none => rw [hd] at h; cases h
      | some d0 =>
        rw [hd] at h
        simp only [Option.some.injEq] at h
        subst h
        left
        simpa [respStatus] using
          dictGet_dictSet d0 (str "response") (str "@OK")
  · decide

/-- Claim C10 witness: the reserved-key property applied to the decoded
result of `"A=1\r\n"`. -/
theorem c10_response_key_reserved_witness :
    respStatus [(str "A", str "1"), (str "response", str "@OK")]
        = some (str "@OK")
      ∨ respStatus [(str "A", str "1"), (str "response", str "@OK")]
          = some (str "@ERROR") :=
  c10_response_key_reserved.1 (str "A=1\r\n")
    [(str "A", str "1"), (str "response", str "@OK")] (by decide)

end Aioyam
